import Mathlib

/-!
Verification of the user-management service's authentication core.

The development shallowly embeds the service layer of the repository:

* `src/models/userModel.js` — the `User` schema, its `toJSON` transform,
  `comparePassword`, `toAuthJSON`, and the static `findByCredentials`;
* `src/config/jwt.js` — token generation and verification;
* `src/services/userService.js` — register, login, refresh, logout,
  soft-delete, update and change-password operations;
* `src/middlewares/authMiddleware.js` — the `authenticate` gate;
* `src/controllers/userController.js` — the profile-update field stripping;
* `src/config/db.js` — the initial-connection retry loop.

The MongoDB collection is embedded as a list of user documents; each
service operation is a state-passing function returning its result
together with the updated collection.  `bcrypt` is idealized as a
deterministic injective one-way hash, and a signed JWT string is embedded
as a record carrying the payload, issuer, issued-at, expiry, and the
signing secret standing in for the signature.
-/

/-- Role enumeration of the user schema: `enum: ['student', 'instructor', 'admin']`. -/
inductive Role
  | student
  | instructor
  | admin
  deriving DecidableEq, Repr

/-- Idealized `bcrypt.hash`: deterministic and injective in the model.  The
pre-save hook hashes the plaintext with a generated salt; claims touched by
hashing depend only on "compare succeeds exactly on the original plaintext". -/
def bcryptHash (plain : String) : String :=
  "$2b$12$" ++ plain

/-- Models `bcrypt.compare(candidate, stored)`: true exactly when `stored` is
the hash of `candidate`. -/
def bcryptCompare (candidate stored : String) : Bool :=
  stored == bcryptHash candidate

/-- Payload signed into a JWT.  Access tokens carry `{userId, email, role}`
(`userService` call sites); refresh tokens carry `{userId}` only. -/
structure Payload where
  userId : Nat
  email : Option String
  role : Option Role
  deriving DecidableEq, Repr

/-- Embedding of a signed JWT string produced by `jwt.sign(payload, secret,
{expiresIn, issuer})`: the claims set plus the signing secret, which stands in
for the signature (a verifier holding `secret` accepts exactly the tokens
signed with it). -/
structure Token where
  payload : Payload
  iss : String
  iat : Nat
  exp : Nat
  secret : String
  deriving DecidableEq, Repr

/-- Process-wide JWT configuration from `config/server.js`: `jwtSecret`,
`jwtExpiration` (default 24h) and `jwtRefreshExpiration` (default 7d). -/
structure JwtCfg where
  secret : String
  accessTTL : Nat
  refreshTTL : Nat
  deriving DecidableEq, Repr

/-- Issuer claim embedded in every token (`issuer: 'learning-platform'`). -/
def issuerName : String := "learning-platform"

/-- Embeds `jwtConfig.generateAccessToken` (`src/config/jwt.js`). -/
def generateAccessToken (cfg : JwtCfg) (now : Nat) (p : Payload) : Token :=
  { payload := p, iss := issuerName, iat := now, exp := now + cfg.accessTTL,
    secret := cfg.secret }

/-- Embeds `jwtConfig.generateRefreshToken` (`src/config/jwt.js`): payload is
`{userId}` only. -/
def generateRefreshToken (cfg : JwtCfg) (now : Nat) (userId : Nat) : Token :=
  { payload := { userId := userId, email := none, role := none },
    iss := issuerName, iat := now, exp := now + cfg.refreshTTL,
    secret := cfg.secret }

/-- Error values thrown by the embedded code paths, one per distinct JS
`Error` message (see `Err.message`). -/
inductive Err
  | invalidCredentials
  | invalidOrExpiredToken
  | invalidRefreshToken
  | emailAlreadyRegistered
  | usernameAlreadyTaken
  | userNotFound
  | currentPasswordIncorrect
  | newPasswordTooShort
  deriving DecidableEq, Repr

/-- Message string the corresponding JS `Error` carries. -/
def Err.message : Err → String
  | .invalidCredentials => "Invalid credentials"
  | .invalidOrExpiredToken => "Invalid or expired token"
  | .invalidRefreshToken => "Invalid refresh token"
  | .emailAlreadyRegistered => "Email already registered"
  | .usernameAlreadyTaken => "Username already taken"
  | .userNotFound => "User not found"
  | .currentPasswordIncorrect => "Current password is incorrect"
  | .newPasswordTooShort => "New password must be at least 8 characters long"

/-- Embeds `jwtConfig.verifyToken` (`src/config/jwt.js`): checks the
signature (modelled by the recorded secret), the issuer claim, and expiry;
any failure is collapsed into the single error `'Invalid or expired token'`. -/
def verifyToken (cfg : JwtCfg) (now : Nat) (t : Token) : Except Err Payload :=
  if t.secret = cfg.secret ∧ t.iss = issuerName ∧ now < t.exp then
    .ok t.payload
  else
    .error .invalidOrExpiredToken

/-- Nested `preferences` subdocument of the user schema. -/
structure Preferences where
  notifyEmail : Bool
  notifyPush : Bool
  theme : String
  deriving DecidableEq, Repr

/-- Schema defaults for `preferences`. -/
def defaultPreferences : Preferences :=
  { notifyEmail := true, notifyPush := true, theme := "auto" }

/-- One user document (`src/models/userModel.js` schema).  `password` stores
the bcrypt hash (the pre-save hook replaces the plaintext before persisting);
`refreshToken` is the nullable stored refresh token. -/
structure User where
  id : Nat
  username : String
  email : String
  password : String
  firstName : Option String
  lastName : Option String
  role : Role
  profileImage : Option String
  bio : Option String
  isActive : Bool
  isEmailVerified : Bool
  lastLogin : Option Nat
  refreshToken : Option Token
  passwordResetToken : Option String
  passwordResetExpires : Option Nat
  emailVerificationToken : Option String
  preferences : Preferences
  createdAt : Nat
  updatedAt : Nat
  deriving DecidableEq, Repr

/-- The users collection. -/
abbrev DB := List User

/-- Embeds `User.findById`. -/
def findById (db : DB) (uid : Nat) : Option User :=
  db.find? (fun u => decide (u.id = uid))

/-- Persisting `user.save()` of an already-inserted document: the stored
document with the same id is replaced. -/
def saveUser (db : DB) (u : User) : DB :=
  db.map (fun v => if v.id = u.id then u else v)

/-- Embeds `userSchema.methods.comparePassword`. -/
def User.comparePassword (u : User) (candidate : String) : Bool :=
  bcryptCompare candidate u.password

/-- Embeds `userSchema.statics.findByCredentials`: one lookup restricted to
`{email, isActive: true}`, then bcrypt comparison; both failure branches
throw the same generic `'Invalid credentials'` error. -/
def findByCredentials (db : DB) (email password : String) : Except Err User :=
  match db.find? (fun u => decide (u.email = email ∧ u.isActive = true)) with
  | none => .error .invalidCredentials
  | some u =>
    if u.comparePassword password then .ok u
    else .error .invalidCredentials

/-- The object returned by `userSchema.methods.toAuthJSON`: exactly the eight
fields listed in the source. -/
structure AuthView where
  id : Nat
  username : String
  email : String
  firstName : Option String
  lastName : Option String
  role : Role
  profileImage : Option String
  isEmailVerified : Bool
  deriving DecidableEq, Repr

/-- Embeds `userSchema.methods.toAuthJSON`. -/
def User.toAuthJSON (u : User) : AuthView :=
  { id := u.id, username := u.username, email := u.email,
    firstName := u.firstName, lastName := u.lastName, role := u.role,
    profileImage := u.profileImage, isEmailVerified := u.isEmailVerified }

/-- Keys of the object `toAuthJSON` builds, in source order. -/
def authViewKeys : List String :=
  ["id", "username", "email", "firstName", "lastName", "role", "profileImage",
   "isEmailVerified"]

/-- Keys of a fully populated user document as serialized with virtuals
enabled: the schema fields, `_id`, the timestamps, and the virtuals `id` and
`fullName`. -/
def userDocumentKeys : List String :=
  ["_id", "username", "email", "password", "firstName", "lastName", "role",
   "profileImage", "bio", "isActive", "isEmailVerified", "lastLogin",
   "refreshToken", "passwordResetToken", "passwordResetExpires",
   "emailVerificationToken", "preferences", "createdAt", "updatedAt", "id",
   "fullName"]

/-- The five keys the schema's `toJSON.transform` deletes from `ret`. -/
def transformDeletedKeys : List String :=
  ["password", "refreshToken", "passwordResetToken", "passwordResetExpires",
   "emailVerificationToken"]

/-- Embeds the `toJSON` transform of the schema options: `delete` of each
sensitive key before the object is returned. -/
def toJSONTransform (keys : List String) : List String :=
  keys.filter (fun k => decide (k ∉ transformDeletedKeys))

/-- Keys the schema marks `select: false`, excluded from query results unless
explicitly re-selected. -/
def selectFalseKeys : List String :=
  ["password", "refreshToken", "passwordResetToken", "passwordResetExpires",
   "emailVerificationToken"]

/-- Keys of one element of the `getAllUsers` listing: the default projection
drops `select: false` fields, `.select('-refreshToken')` drops the refresh
token, and serializing the result applies the `toJSON` transform. -/
def listingKeys : List String :=
  toJSONTransform
    ((userDocumentKeys.filter (fun k => decide (k ∉ selectFalseKeys))).filter
      (fun k => decide (k ≠ "refreshToken")))

/-- Result object of `registerUser` / `loginUser`. -/
structure AuthResponse where
  user : AuthView
  accessToken : Token
  refreshToken : Token
  deriving DecidableEq, Repr

/-- Body of a registration request (`userData`). -/
structure RegisterData where
  username : String
  email : String
  password : String
  firstName : Option String
  lastName : Option String
  role : Option Role
  deriving DecidableEq, Repr

/-- The document `new User(userData)` + first `save()` produces: password
hashed by the pre-save hook, schema defaults applied, `_id` assigned by the
store (`freshId`), timestamps set. -/
def newUserDoc (now freshId : Nat) (d : RegisterData) : User :=
  { id := freshId, username := d.username, email := d.email,
    password := bcryptHash d.password,
    firstName := d.firstName, lastName := d.lastName,
    role := d.role.getD Role.student,
    profileImage := none, bio := none,
    isActive := true, isEmailVerified := false, lastLogin := none,
    refreshToken := none,
    passwordResetToken := none, passwordResetExpires := none,
    emailVerificationToken := none,
    preferences := defaultPreferences,
    createdAt := now, updatedAt := now }

/-- The no-duplicate tail of `userService.registerUser`: insert the document,
issue both tokens, store the refresh token on the document, return the
sanitized view with the tokens. -/
def registerCreate (cfg : JwtCfg) (now freshId : Nat) (db : DB)
    (d : RegisterData) : Except Err AuthResponse × DB :=
  let u0 := newUserDoc now freshId d
  let access := generateAccessToken cfg now
    { userId := u0.id, email := some u0.email, role := some u0.role }
  let refreshTok := generateRefreshToken cfg now u0.id
  let u1 := { u0 with refreshToken := some refreshTok, updatedAt := now }
  (.ok { user := u1.toAuthJSON, accessToken := access, refreshToken := refreshTok },
   db ++ [u1])

/-- Embeds `userService.registerUser`: one combined `$or` lookup for an
existing email or username, a disambiguated duplicate error, otherwise
creation. -/
def registerUser (cfg : JwtCfg) (now freshId : Nat) (db : DB)
    (d : RegisterData) : Except Err AuthResponse × DB :=
  match db.find? (fun u => decide (u.email = d.email ∨ u.username = d.username)) with
  | some existing =>
    if existing.email = d.email then (.error .emailAlreadyRegistered, db)
    else if existing.username = d.username then (.error .usernameAlreadyTaken, db)
    else registerCreate cfg now freshId db d
  | none => registerCreate cfg now freshId db d

/-- Embeds `userService.loginUser`: credentials check, `lastLogin` update,
token issuance, refresh-token overwrite, save. -/
def loginUser (cfg : JwtCfg) (now : Nat) (db : DB) (email password : String) :
    Except Err AuthResponse × DB :=
  match findByCredentials db email password with
  | .error e => (.error e, db)
  | .ok u =>
    let access := generateAccessToken cfg now
      { userId := u.id, email := some u.email, role := some u.role }
    let refreshTok := generateRefreshToken cfg now u.id
    let u' := { u with lastLogin := some now, refreshToken := some refreshTok,
                       updatedAt := now }
    (.ok { user := u'.toAuthJSON, accessToken := access, refreshToken := refreshTok },
     saveUser db u')

/-- Embeds `userService.refreshAccessToken`: cryptographic verification (its
failure rethrows `'Invalid or expired token'`), then one lookup for `{_id,
refreshToken, isActive: true}` failing with `'Invalid refresh token'`; on
success only a new access token is issued and nothing is saved. -/
def refreshAccessToken (cfg : JwtCfg) (now : Nat) (db : DB) (t : Token) :
    Except Err Token × DB :=
  match verifyToken cfg now t with
  | .error e => (.error e, db)
  | .ok decoded =>
    match db.find? (fun u =>
        decide (u.id = decoded.userId ∧ u.refreshToken = some t ∧ u.isActive = true)) with
    | none => (.error .invalidRefreshToken, db)
    | some u =>
      (.ok (generateAccessToken cfg now
        { userId := u.id, email := some u.email, role := some u.role }), db)

/-- Embeds `userService.logoutUser`: `findByIdAndUpdate(userId,
{refreshToken: null})`. -/
def logoutUser (now : Nat) (db : DB) (uid : Nat) : Except Err Unit × DB :=
  match findById db uid with
  | none => (.error .userNotFound, db)
  | some _ =>
    (.ok (), db.map (fun v =>
      if v.id = uid then { v with refreshToken := none, updatedAt := now } else v))

/-- Embeds `userService.deleteUser` (soft delete): `findByIdAndUpdate(userId,
{isActive: false, refreshToken: null})`. -/
def deleteUser (now : Nat) (db : DB) (uid : Nat) : Except Err Unit × DB :=
  match findById db uid with
  | none => (.error .userNotFound, db)
  | some _ =>
    (.ok (), db.map (fun v =>
      if v.id = uid then
        { v with isActive := false, refreshToken := none, updatedAt := now }
      else v))

/-- Embeds `userService.changePassword`: load the document, re-verify the
current password, enforce the 8-character minimum on the new one, then let
the pre-save hook re-hash and persist. -/
def changePassword (now : Nat) (db : DB) (uid : Nat)
    (currentPassword newPassword : String) : Except Err Unit × DB :=
  match findById db uid with
  | none => (.error .userNotFound, db)
  | some u =>
    if u.comparePassword currentPassword then
      if newPassword.length < 8 then (.error .newPasswordTooShort, db)
      else
        (.ok (), saveUser db { u with password := bcryptHash newPassword,
                                      updatedAt := now })
    else (.error .currentPasswordIncorrect, db)

/-- A profile-update request body: each field is present (`some`) or absent.
Mirrors the JS object whose keys the controller may `delete`. -/
structure UpdateBody where
  usernameF : Option String
  emailF : Option String
  passwordF : Option String
  roleF : Option Role
  refreshTokenF : Option (Option Token)
  firstNameF : Option String
  lastNameF : Option String
  bioF : Option String
  profileImageF : Option String
  deriving DecidableEq, Repr

/-- Applying `$set` of the present fields of the body to a document
(`findByIdAndUpdate(userId, { $set: updates }, ...)`); `updatedAt` is bumped
by the schema's timestamps option. -/
def applySet (now : Nat) (u : User) (b : UpdateBody) : User :=
  { u with
    username := b.usernameF.getD u.username,
    email := b.emailF.getD u.email,
    password := b.passwordF.getD u.password,
    role := b.roleF.getD u.role,
    refreshToken := b.refreshTokenF.getD u.refreshToken,
    firstName := match b.firstNameF with | some s => some s | none => u.firstName,
    lastName := match b.lastNameF with | some s => some s | none => u.lastName,
    bio := match b.bioF with | some s => some s | none => u.bio,
    profileImage := match b.profileImageF with | some s => some s | none => u.profileImage,
    updatedAt := now }

/-- Embeds `userService.updateUser`: `findByIdAndUpdate` with `$set` of the
given fields, returning the updated document (`new: true`). -/
def updateUser (now : Nat) (db : DB) (uid : Nat) (b : UpdateBody) :
    Except Err User × DB :=
  match findById db uid with
  | none => (.error .userNotFound, db)
  | some u =>
    (.ok (applySet now u b),
     db.map (fun v => if v.id = uid then applySet now v b else v))

/-- The controller's stripping of sensitive fields in
`userController.updateProfile`: `delete updates.password; delete
updates.email; delete updates.role; delete updates.refreshToken`. -/
def sanitizeUpdates (b : UpdateBody) : UpdateBody :=
  { b with passwordF := none, emailF := none, roleF := none,
           refreshTokenF := none }

/-- Embeds the profile-update path: controller stripping followed by
`userService.updateUser`. -/
def updateProfile (now : Nat) (db : DB) (uid : Nat) (b : UpdateBody) :
    Except Err User × DB :=
  updateUser now db uid (sanitizeUpdates b)

/-- The `Authorization` header as the middleware sees it: absent, present
without the `Bearer ` scheme, or a bearer token. -/
inductive AuthHeader
  | missing
  | nonBearer (raw : String)
  | bearer (t : Token)
  deriving DecidableEq, Repr

/-- The identity `authenticate` attaches as `req.user`. -/
structure Identity where
  id : Nat
  username : String
  email : String
  role : Role
  deriving DecidableEq, Repr

/-- Outcome of the authentication middleware: pass with an identity, or a
401 response whose message is recorded. -/
inductive AuthOutcome
  | ok (ident : Identity)
  | unauthorized (message : String)
  deriving DecidableEq, Repr

/-- Embeds `authMiddleware.authenticate`: scheme check, token verification,
re-fetch of the account, liveness check, identity attachment. -/
def authenticate (cfg : JwtCfg) (now : Nat) (db : DB) (h : AuthHeader) :
    AuthOutcome :=
  match h with
  | .missing => .unauthorized "Access denied. No token provided."
  | .nonBearer _ => .unauthorized "Access denied. No token provided."
  | .bearer t =>
    match verifyToken cfg now t with
    | .error _ => .unauthorized "Invalid or expired token"
    | .ok decoded =>
      match findById db decoded.userId with
      | none => .unauthorized "User not found or inactive"
      | some u =>
        if u.isActive then
          .ok { id := u.id, username := u.username, email := u.email,
                role := u.role }
        else .unauthorized "User not found or inactive"

/-- Outcome of the initial-connection routine in `src/config/db.js`:
connection established on the given 1-based attempt, `process.exit(code)`,
or the loop running off its guard (possible only when `maxRetries = 0`, when
the JS function returns `undefined`).  `sleeps` lists the delays slept, in
order. -/
inductive ConnectOutcome
  | connected (attempt : Nat) (sleeps : List Nat)
  | exited (code : Nat) (sleeps : List Nat)
  | ranOffLoop (sleeps : List Nat)
  deriving DecidableEq, Repr

/-- The retry loop of `connectDB`, fuel-indexed: `fuel` is
`maxRetries - retries`, so the `while (retries < maxRetries)` guard of the
source corresponds to `fuel = 0`.  `succ i` tells whether the attempt made
with `retries = i` succeeds; `acc` accumulates performed sleeps in reverse. -/
def connectGo (succ : Nat → Bool) (retryDelay maxRetries : Nat) :
    Nat → Nat → List Nat → ConnectOutcome
  | 0, _, acc => .ranOffLoop acc.reverse
  | fuel + 1, retries, acc =>
    if succ retries then .connected (retries + 1) acc.reverse
    else if retries + 1 ≥ maxRetries then .exited 1 acc.reverse
    else connectGo succ retryDelay maxRetries fuel (retries + 1)
      (retryDelay * (retries + 1) :: acc)

/-- Embeds `connectDB` (`src/config/db.js`): retry loop starting from
`retries = 0` with the configured maximum and base delay. -/
def connectDB (succ : Nat → Bool) (maxRetries retryDelay : Nat) :
    ConnectOutcome :=
  connectGo succ retryDelay maxRetries maxRetries 0 []

/-! ### Helper lemmas -/

/-- The idealized bcrypt hash is injective. -/
theorem bcryptHash_inj {p q : String} (h : bcryptHash p = bcryptHash q) :
    p = q := by
  have hd : (bcryptHash p).data = (bcryptHash q).data := congrArg String.data h
  simp only [bcryptHash, String.data_append] at hd
  exact String.ext (List.append_cancel_left hd)

/-- Comparison against a hash succeeds exactly on the original plaintext. -/
theorem bcryptCompare_hash (p q : String) :
    bcryptCompare p (bcryptHash q) = true ↔ p = q := by
  constructor
  · intro h
    have hq : bcryptHash q = bcryptHash p := by
      simpa [bcryptCompare, beq_iff_eq] using h
    exact (bcryptHash_inj hq).symm
  · rintro rfl
    simp [bcryptCompare]

/-- Mapping a function that does not change the predicate's verdict commutes
with `find?`. -/
theorem find?_map_of_pred_eq {α : Type} (g : α → α) (p : α → Bool) (l : List α)
    (h : ∀ x, p (g x) = p x) : (l.map g).find? p = (l.find? p).map g := by
  rw [List.find?_map]
  have hpg : p ∘ g = p := funext h
  rw [hpg]

/-- A list is pointwise related to its image under a map. -/
theorem forall₂_map_self {α : Type} (R : α → α → Prop) (g : α → α) (l : List α)
    (h : ∀ x ∈ l, R x (g x)) : List.Forall₂ R l (l.map g) := by
  induction l with
  | nil => exact List.Forall₂.nil
  | cons a t ih =>
    exact List.Forall₂.cons (h a (List.mem_cons_self a t))
      (ih fun x hx => h x (List.mem_cons_of_mem a hx))

/-! ### Claim C1 -/

/-- Claim C1: `findByCredentials` looks up only active accounts by email and
verifies the password via the hasher; it fails with the single generic
`Invalid credentials` error both when no such active account exists and when
the password does not match, and on success it returns the matching
account. -/
theorem C1_findByCredentials_generic_error (db : DB) (email pw : String) :
    (∀ u : User, findByCredentials db email pw = .ok u →
        u ∈ db ∧ u.email = email ∧ u.isActive = true ∧
          u.comparePassword pw = true)
  ∧ ((∀ u ∈ db, u.email = email → u.isActive = false) →
        findByCredentials db email pw = .error .invalidCredentials)
  ∧ (∀ u : User,
        db.find? (fun v => decide (v.email = email ∧ v.isActive = true)) = some u →
        u.comparePassword pw = false →
        findByCredentials db email pw = .error .invalidCredentials) := by
  refine ⟨?_, ?_, ?_⟩
  · intro u hu
    unfold findByCredentials at hu
    cases hfind : db.find? (fun v => decide (v.email = email ∧ v.isActive = true)) with
    | none => rw [hfind] at hu; exact absurd hu (by simp)
    | some w =>
      rw [hfind] at hu
      cases hcmp : w.comparePassword pw with
      | false => simp [hcmp] at hu
      | true =>
        simp only [hcmp, if_true] at hu
        cases hu
        have hw := List.find?_some hfind
        have hmem := List.mem_of_find?_eq_some hfind
        simp only [decide_eq_true_eq] at hw
        exact ⟨hmem, hw.1, hw.2, hcmp⟩
  · intro hnone
    unfold findByCredentials
    have hfind : db.find? (fun v => decide (v.email = email ∧ v.isActive = true)) = none := by
      rw [List.find?_eq_none]
      intro x hx
      simp only [decide_eq_true_eq, not_and]
      intro he
      rw [hnone x hx he]
      exact Bool.false_ne_true
    rw [hfind]
  · intro u hfind hcmp
    unfold findByCredentials
    rw [hfind]
    simp [hcmp]

/-! ### Claim C2 -/

/-- Fixture configuration for concrete evaluations. -/
def cfgX : JwtCfg := { secret := "s0", accessTTL := 86400, refreshTTL := 604800 }

/-- A syntactically well-formed refresh token signed with the wrong secret. -/
def forgedTok : Token :=
  { payload := { userId := 1, email := none, role := none },
    iss := issuerName, iat := 0, exp := 1000, secret := "attacker" }

/-- Fixture user that stores `forgedTok` as its current refresh token. -/
def aliceX : User :=
  { id := 1, username := "alice", email := "alice@example.com",
    password := bcryptHash "password1", firstName := none, lastName := none,
    role := .student, profileImage := none, bio := none, isActive := true,
    isEmailVerified := false, lastLogin := none, refreshToken := some forgedTok,
    passwordResetToken := none, passwordResetExpires := none,
    emailVerificationToken := none, preferences := defaultPreferences,
    createdAt := 0, updatedAt := 0 }

/-- Fixture collection holding only `aliceX`. -/
def dbX : DB := [aliceX]

/-- Claim C2 counterexample: a token whose cryptographic verification fails
(wrong signing secret) while the stored-token and active-account checks would
pass makes `refreshAccessToken` fail with the verifier's `Invalid or expired
token` error, not with `Invalid refresh token` as the claim states for every
failing check. -/
theorem C2_crypto_failure_error_counterexample :
    (refreshAccessToken cfgX 0 dbX forgedTok).1 = .error .invalidOrExpiredToken ∧
    (refreshAccessToken cfgX 0 dbX forgedTok).1 ≠ .error .invalidRefreshToken ∧
    aliceX.refreshToken = some forgedTok ∧ aliceX.isActive = true := by
  refine ⟨rfl, ?_, rfl, rfl⟩
  intro h
  rw [show (refreshAccessToken cfgX 0 dbX forgedTok).1
        = .error .invalidOrExpiredToken from rfl] at h
  exact absurd h (by simp)

/-- Claim C2 (amended): `refreshAccessToken` succeeds only if the token
verifies cryptographically AND the exact token value equals the refresh token
stored on an active matching account; a cryptographic failure surfaces the
verifier's `Invalid or expired token` error, while a stored-token mismatch or
inactive account fails with `Invalid refresh token`; on success only a new
access token is issued and the store (hence the stored refresh token) is
unchanged. -/
theorem C2_refreshAccessToken_amended (cfg : JwtCfg) (now : Nat) (db : DB)
    (t : Token) :
    ((refreshAccessToken cfg now db t).2 = db)
  ∧ (∀ e, verifyToken cfg now t = .error e →
        (refreshAccessToken cfg now db t).1 = .error e ∧
          e = .invalidOrExpiredToken)
  ∧ (∀ p, verifyToken cfg now t = .ok p →
        (∀ u ∈ db, ¬(u.id = p.userId ∧ u.refreshToken = some t ∧ u.isActive = true)) →
        (refreshAccessToken cfg now db t).1 = .error .invalidRefreshToken)
  ∧ (∀ newTok, (refreshAccessToken cfg now db t).1 = .ok newTok →
        ∃ p u, verifyToken cfg now t = .ok p ∧ u ∈ db ∧ u.id = p.userId ∧
          u.refreshToken = some t ∧ u.isActive = true ∧
          newTok = generateAccessToken cfg now
            { userId := u.id, email := some u.email, role := some u.role }) := by
  refine ⟨?_, ?_, ?_, ?_⟩
  · unfold refreshAccessToken
    split
    · rfl
    · split
      · rfl
      · rfl
  · intro e hv
    refine ⟨?_, ?_⟩
    · unfold refreshAccessToken
      rw [hv]
    · unfold verifyToken at hv
      split at hv
      · exact absurd hv (by simp)
      · injection hv with h
        exact h.symm
  · intro p hv hnone
    have hf : db.find? (fun u =>
        decide (u.id = p.userId ∧ u.refreshToken = some t ∧ u.isActive = true)) = none := by
      rw [List.find?_eq_none]
      intro x hx
      simpa using hnone x hx
    unfold refreshAccessToken
    rw [hv]
    simp only [hf]
  · intro newTok h
    unfold refreshAccessToken at h
    cases hv : verifyToken cfg now t with
    | error e => rw [hv] at h; exact absurd h (by simp)
    | ok p =>
      rw [hv] at h
      cases hf : db.find? (fun u =>
          decide (u.id = p.userId ∧ u.refreshToken = some t ∧ u.isActive = true)) with
      | none =>
        simp only [hf] at h
        exact absurd h (by simp)
      | some u =>
        simp only [hf, Except.ok.injEq] at h
        have hu := List.find?_some hf
        have hmem := List.mem_of_find?_eq_some hf
        simp only [decide_eq_true_eq] at hu
        exact ⟨p, u, rfl, hmem, hu.1, hu.2.1, hu.2.2, h.symm⟩

/-! ### Claim C9 -/

/-- All-failure run of the retry loop: starting at `retries` with matching
fuel, the loop sleeps `retryDelay * j` for `j = retries + 1, …, maxRetries - 1`
and then exits with code 1 (the final failed attempt exits without a sleep). -/
theorem connectGo_all_fail (succ : Nat → Bool) (d n : Nat) :
    ∀ fuel retries acc, fuel = n - retries → retries < n →
      (∀ i, i < n → succ i = false) →
      connectGo succ d n fuel retries acc =
        .exited 1 (acc.reverse ++
          (List.range' (retries + 1) (n - 1 - retries)).map (fun j => d * j)) := by
  intro fuel
  induction fuel with
  | zero =>
    intro retries acc hfuel hlt hfail
    omega
  | succ f ih =>
    intro retries acc hfuel hlt hfail
    simp only [connectGo]
    rw [hfail retries hlt]
    simp only [Bool.false_eq_true, if_false]
    by_cases hend : retries + 1 ≥ n
    · rw [if_pos hend]
      have h0 : n - 1 - retries = 0 := by omega
      rw [h0]
      simp
    · rw [if_neg hend]
      rw [ih (retries + 1) (d * (retries + 1) :: acc) (by omega) (by omega) hfail]
      congr 1
      rw [List.reverse_cons, List.append_assoc]
      congr 1
      have hr : n - 1 - retries = (n - 1 - (retries + 1)) + 1 := by omega
      rw [hr, List.range'_succ]
      simp

/-- First-success run of the retry loop: if the attempt at `k` is the first
to succeed, the loop returns the connection as attempt `k + 1` having slept
only for the `k - retries` failures before it. -/
theorem connectGo_first_success (succ : Nat → Bool) (d n : Nat) :
    ∀ fuel retries acc k, fuel = n - retries → retries ≤ k → k < n →
      succ k = true → (∀ i, retries ≤ i → i < k → succ i = false) →
      connectGo succ d n fuel retries acc =
        .connected (k + 1) (acc.reverse ++
          (List.range' (retries + 1) (k - retries)).map (fun j => d * j)) := by
  intro fuel
  induction fuel with
  | zero =>
    intro retries acc k hfuel hrk hkn hk hfail
    omega
  | succ f ih =>
    intro retries acc k hfuel hrk hkn hk hfail
    simp only [connectGo]
    by_cases hr : retries = k
    · subst hr
      rw [hk]
      simp
    · have hlt : retries < k := by omega
      rw [hfail retries (Nat.le_refl retries) hlt]
      simp only [Bool.false_eq_true, if_false]
      have hnend : ¬(retries + 1 ≥ n) := by omega
      rw [if_neg hnend]
      rw [ih (retries + 1) (d * (retries + 1) :: acc) k (by omega) (by omega) hkn hk
          (fun i h1 h2 => hfail i (by omega) h2)]
      congr 1
      rw [List.reverse_cons, List.append_assoc]
      congr 1
      have hkr : k - retries = (k - (retries + 1)) + 1 := by omega
      rw [hkr, List.range'_succ]
      simp

/-- Whenever the retry loop exits the process, the exit code is 1. -/
theorem connectGo_exit_code (succ : Nat → Bool) (d n : Nat) :
    ∀ fuel retries acc code sleeps,
      connectGo succ d n fuel retries acc = .exited code sleeps → code = 1 := by
  intro fuel
  induction fuel with
  | zero =>
    intro r acc code sleeps h
    simp only [connectGo] at h
    exact absurd h (by simp)
  | succ f ih =>
    intro r acc code sleeps h
    simp only [connectGo] at h
    by_cases hs : succ r = true
    · rw [if_pos hs] at h
      exact absurd h (by simp)
    · rw [if_neg hs] at h
      by_cases he : r + 1 ≥ n
      · rw [if_pos he] at h
        injection h with h1 h2
        omega
      · rw [if_neg he] at h
        exact ih _ _ _ _ h

/-- Rewrites the delay list produced from a `range'` starting at 1 to the
claim's `attempt number` form. -/
theorem range'_one_map_mul (d m : Nat) :
    (List.range' 1 m).map (fun j => d * j) =
      (List.range m).map (fun i => d * (i + 1)) := by
  rw [List.range'_eq_map_range, List.map_map]
  have hfun : ((fun j => d * j) ∘ fun x => 1 + x) = fun i => d * (i + 1) := by
    funext x
    simp [Nat.add_comm]
  rw [hfun]

/-- Claim C9 counterexample: with the default configuration (5 attempts, 5s
base delay) and every attempt failing, the process exits having slept only
5s, 10s, 15s and 20s — the 25s delay listed by the claim never occurs,
because exhausting the retries exits immediately after the final failed
attempt. -/
theorem C9_default_delays_counterexample :
    connectDB (fun _ => false) 5 5000 = .exited 1 [5000, 10000, 15000, 20000] ∧
    25000 ∉ [5000, 10000, 15000, 20000] :=
  ⟨rfl, by decide⟩

/-- Claim C9 (amended): the initial database connection is attempted up to
the configured maximum number of times (default 5), waiting between
consecutive attempts a linearly increasing delay of the base delay times the
number of failures so far (defaults 5s, 10s, 15s, 20s; no fifth delay occurs
because exhaustion exits immediately after the final failed attempt); if all
attempts fail the process terminates with the non-zero exit code 1, and the
first successful attempt returns the connection without further retries or
delays. -/
theorem C9_connect_retry_amended (succ : Nat → Bool) (maxRetries retryDelay : Nat) :
    (0 < maxRetries → (∀ i, i < maxRetries → succ i = false) →
        connectDB succ maxRetries retryDelay =
          .exited 1 ((List.range (maxRetries - 1)).map (fun i => retryDelay * (i + 1))))
  ∧ (∀ code sleeps, connectDB succ maxRetries retryDelay = .exited code sleeps →
        code ≠ 0)
  ∧ (∀ k, k < maxRetries → succ k = true → (∀ i, i < k → succ i = false) →
        connectDB succ maxRetries retryDelay =
          .connected (k + 1) ((List.range k).map (fun i => retryDelay * (i + 1)))) := by
  refine ⟨?_, ?_, ?_⟩
  · intro hpos hfail
    unfold connectDB
    rw [connectGo_all_fail succ retryDelay maxRetries maxRetries 0 []
        (by omega) hpos hfail]
    simp only [List.reverse_nil, List.nil_append, Nat.zero_add]
    rw [show maxRetries - 1 - 0 = maxRetries - 1 from rfl]
    rw [range'_one_map_mul]
  · intro code sleeps h
    have := connectGo_exit_code succ retryDelay maxRetries maxRetries 0 [] code sleeps h
    omega
  · intro k hk hsucc hbefore
    unfold connectDB
    rw [connectGo_first_success succ retryDelay maxRetries maxRetries 0 [] k
        (by omega) (Nat.zero_le k) hk hsucc (fun i h1 h2 => hbefore i h2)]
    simp only [List.reverse_nil, List.nil_append, Nat.zero_add]
    rw [show k - 0 = k from rfl]
    rw [range'_one_map_mul]

/-! ### Claim C3 -/

/-- After a soft delete of `uid`, a lookup by `uid` can only return an
inactive document. -/
theorem findById_after_delete_inactive (nowDel : Nat) (db : DB) (uid : Nat) :
    ∀ w, findById ((deleteUser nowDel db uid).2) uid = some w →
      w.isActive = false := by
  intro w hw
  unfold deleteUser at hw
  cases hdel : findById db uid with
  | none =>
    simp only [hdel] at hw
    exact absurd hw (by simp)
  | some u =>
    simp only [hdel] at hw
    have hpred : ∀ x : User,
        (decide ((if x.id = uid then
            { x with isActive := false, refreshToken := none, updatedAt := nowDel }
          else x).id = uid) : Bool) = decide (x.id = uid) := by
      intro x
      by_cases hx : x.id = uid
      · simp [hx]
      · simp [hx]
    have hmap := find?_map_of_pred_eq
      (fun v => if v.id = uid then
          { v with isActive := false, refreshToken := none, updatedAt := nowDel }
        else v)
      (fun v => decide (v.id = uid)) db hpred
    have hdel' : db.find? (fun v => decide (v.id = uid)) = some u := hdel
    have hw' : (db.find? (fun v => decide (v.id = uid))).map
        (fun v => if v.id = uid then
            { v with isActive := false, refreshToken := none, updatedAt := nowDel }
          else v) = some w := by
      rw [← hmap]
      exact hw
    rw [hdel'] at hw'
    have hid : u.id = uid := by simpa using List.find?_some hdel'
    rw [Option.map_some', if_pos hid] at hw'
    injection hw' with h
    rw [← h]

/-- Claim C3: for a request carrying a cryptographically valid, unexpired
token, `authenticate` re-fetches the account and rejects the request with a
401 whenever the account no longer exists or has `isActive = false`; a
soft-deleted account is rejected even with a token issued before deletion,
and an identity is attached only when the account exists and is active. -/
theorem C3_authenticate_rejects_missing_or_inactive (cfg : JwtCfg) (now : Nat)
    (db : DB) (t : Token) :
    (∀ p, verifyToken cfg now t = .ok p → findById db p.userId = none →
        authenticate cfg now db (.bearer t) =
          .unauthorized "User not found or inactive")
  ∧ (∀ p u, verifyToken cfg now t = .ok p → findById db p.userId = some u →
        u.isActive = false →
        authenticate cfg now db (.bearer t) =
          .unauthorized "User not found or inactive")
  ∧ (∀ ident, authenticate cfg now db (.bearer t) = .ok ident →
        ∃ p u, verifyToken cfg now t = .ok p ∧ findById db p.userId = some u ∧
          u.isActive = true ∧
          ident = { id := u.id, username := u.username, email := u.email,
                    role := u.role })
  ∧ (∀ p nowDel, verifyToken cfg now t = .ok p →
        authenticate cfg now ((deleteUser nowDel db p.userId).2) (.bearer t) =
          .unauthorized "User not found or inactive") := by
  refine ⟨?_, ?_, ?_, ?_⟩
  · intro p hv hfid
    simp only [authenticate, hv, hfid]
  · intro p u hv hfu hia
    simp [authenticate, hv, hfu, hia]
  · intro ident h
    simp only [authenticate] at h
    cases hv : verifyToken cfg now t with
    | error e =>
      rw [hv] at h
      exact absurd h (by simp)
    | ok p =>
      rw [hv] at h
      cases hfid : findById db p.userId with
      | none =>
        simp only [hfid] at h
        exact absurd h (by simp)
      | some u =>
        simp only [hfid] at h
        cases hia : u.isActive with
        | false => simp [hia] at h
        | true =>
          simp only [hia, if_true, AuthOutcome.ok.injEq] at h
          exact ⟨p, u, rfl, hfid, hia, h.symm⟩
  · intro p nowDel hv
    simp only [authenticate, hv]
    cases hfa : findById ((deleteUser nowDel db p.userId).2) p.userId with
    | none => simp only [hfa]
    | some w =>
      have hin := findById_after_delete_inactive nowDel db p.userId w hfa
      simp [hfa, hin]

/-! ### Claim C4 -/

/-- Logging out leaves no stored refresh token on the account. -/
theorem logout_clears_token (now : Nat) (db : DB) (uid : Nat) :
    ∀ r db', logoutUser now db uid = (r, db') →
      ∀ u ∈ db', u.id = uid → u.refreshToken = none := by
  intro r db' hlg u hu hid
  unfold logoutUser at hlg
  cases hdel : findById db uid with
  | none =>
    simp only [hdel] at hlg
    injection hlg with h1 h2
    subst h2
    have hnone : db.find? (fun v => decide (v.id = uid)) = none := hdel
    rw [List.find?_eq_none] at hnone
    have := hnone u hu
    simp [hid] at this
  | some w =>
    simp only [hdel] at hlg
    injection hlg with h1 h2
    subst h2
    rcases List.mem_map.mp hu with ⟨v, hv, rfl⟩
    by_cases hvid : v.id = uid
    · simp [hvid]
    · rw [if_neg hvid] at hid
      exact absurd hid hvid

/-- A token that is not stored on any matching account never satisfies the
refresh operation. -/
theorem refresh_fails_of_not_stored (cfg : JwtCfg) (now : Nat) (db : DB)
    (t : Token)
    (h : ∀ u ∈ db, u.id = t.payload.userId → u.refreshToken ≠ some t) :
    ∀ newTok, (refreshAccessToken cfg now db t).1 ≠ .ok newTok := by
  intro newTok hok
  unfold refreshAccessToken at hok
  cases hv : verifyToken cfg now t with
  | error e =>
    rw [hv] at hok
    exact absurd hok (by simp)
  | ok p =>
    rw [hv] at hok
    cases hf : db.find? (fun u =>
        decide (u.id = p.userId ∧ u.refreshToken = some t ∧ u.isActive = true)) with
    | none => simp only [hf] at hok; exact absurd hok (by simp)
    | some u =>
      have hu := List.find?_some hf
      have hmem := List.mem_of_find?_eq_some hf
      simp only [decide_eq_true_eq] at hu
      have hp : p = t.payload := by
        unfold verifyToken at hv
        split at hv
        · injection hv with h1
          exact h1.symm
        · exact absurd hv (by simp)
      rw [hp] at hu
      exact h u hmem hu.1 hu.2.1

/-- The collection state after a successful registration: the new document is
appended, carrying the freshly generated refresh token. -/
theorem registerCreate_state (cfg : JwtCfg) (now freshId : Nat) (db : DB)
    (d : RegisterData) (res : AuthResponse) (db' : DB)
    (h : registerCreate cfg now freshId db d = (.ok res, db')) :
    db' = db ++ [{ newUserDoc now freshId d with
                   refreshToken := some (generateRefreshToken cfg now freshId),
                   updatedAt := now }] := by
  unfold registerCreate at h
  simp only [Prod.mk.injEq] at h
  exact h.2.symm

/-- A successful `registerUser` run reaches the creation branch and appends
the new document. -/
theorem registerUser_ok_state (cfg : JwtCfg) (now freshId : Nat) (db : DB)
    (d : RegisterData) (res : AuthResponse) (db' : DB)
    (h : registerUser cfg now freshId db d = (.ok res, db')) :
    db' = db ++ [{ newUserDoc now freshId d with
                   refreshToken := some (generateRefreshToken cfg now freshId),
                   updatedAt := now }] := by
  unfold registerUser at h
  cases hf : db.find? (fun u => decide (u.email = d.email ∨ u.username = d.username)) with
  | none =>
    simp only [hf] at h
    exact registerCreate_state cfg now freshId db d res db' h
  | some existing =>
    simp only [hf] at h
    by_cases he : existing.email = d.email
    · rw [if_pos he] at h
      exact absurd h (by simp)
    · rw [if_neg he] at h
      by_cases hus : existing.username = d.username
      · rw [if_pos hus] at h
        exact absurd h (by simp)
      · rw [if_neg hus] at h
        exact registerCreate_state cfg now freshId db d res db' h

/-- Claim C4: every account holds at most one live refresh token — logout
unconditionally clears the stored refresh token, successful login or
registration stores exactly the freshly generated refresh token (overwriting
any prior value), and any token that is not the currently stored one — in
particular a refresh token from a prior session — never satisfies the
refresh operation. -/
theorem C4_single_live_refresh_token (cfg : JwtCfg) (now : Nat) (db : DB) :
    (∀ uid r db', logoutUser now db uid = (r, db') →
        ∀ u ∈ db', u.id = uid → u.refreshToken = none)
  ∧ (∀ uid r db' nowR t, logoutUser now db uid = (r, db') →
        t.payload.userId = uid →
        ∀ newTok, (refreshAccessToken cfg nowR db' t).1 ≠ .ok newTok)
  ∧ (∀ email pw res db', loginUser cfg now db email pw = (.ok res, db') →
        ∀ u ∈ db', u.id = res.user.id →
          u.refreshToken = some (generateRefreshToken cfg now res.user.id))
  ∧ (∀ freshId d res db', (∀ u ∈ db, u.id ≠ freshId) →
        registerUser cfg now freshId db d = (.ok res, db') →
        ∀ u ∈ db', u.id = freshId →
          u.refreshToken = some (generateRefreshToken cfg now freshId))
  ∧ (∀ t : Token, (∀ u ∈ db, u.id = t.payload.userId → u.refreshToken ≠ some t) →
        ∀ newTok, (refreshAccessToken cfg now db t).1 ≠ .ok newTok) := by
  refine ⟨?_, ?_, ?_, ?_, ?_⟩
  · exact logout_clears_token now db
  · intro uid r db' nowR t hlg hpid
    apply refresh_fails_of_not_stored
    intro u hu hid
    have := logout_clears_token now db uid r db' hlg u hu (by rw [hid, hpid])
    rw [this]
    simp
  · intro email pw res db' hlg
    simp only [loginUser] at hlg
    cases hcred : findByCredentials db email pw with
    | error e =>
      rw [hcred] at hlg
      exact absurd hlg (by simp)
    | ok w =>
      rw [hcred] at hlg
      simp only [Prod.mk.injEq, Except.ok.injEq] at hlg
      obtain ⟨hres, hdb⟩ := hlg
      subst hdb
      subst hres
      intro u hu hid
      rcases List.mem_map.mp hu with ⟨v, hv, rfl⟩
      by_cases hvid : v.id = w.id
      · rw [if_pos hvid]
        rfl
      · rw [if_neg hvid] at hid ⊢
        exact absurd hid hvid
  · intro freshId d res db' hfresh hreg u hu hid
    have hstate := registerUser_ok_state cfg now freshId db d res db' hreg
    subst hstate
    rcases List.mem_append.mp hu with hin | hin
    · exact absurd hid (hfresh u hin)
    · rcases List.mem_singleton.mp hin with rfl
      rfl
  · exact fun t h => refresh_fails_of_not_stored cfg now db t h

/-! ### Claim C5 -/

/-- Claim C5: registration checks duplicates in one combined lookup before
insert; it fails with the email-specific error when an account with the email
exists and with the username-specific error when an account with the username
exists (the two error values disambiguate which field collided), any
collision yields one of the two duplicate errors with the store untouched,
and with no collision the new account is inserted. -/
theorem C5_register_duplicate_check (cfg : JwtCfg) (now freshId : Nat)
    (db : DB) (d : RegisterData) :
    ((∃ u ∈ db, u.email = d.email) → (∀ u ∈ db, u.username ≠ d.username) →
        registerUser cfg now freshId db d = (.error .emailAlreadyRegistered, db))
  ∧ ((∃ u ∈ db, u.username = d.username) → (∀ u ∈ db, u.email ≠ d.email) →
        registerUser cfg now freshId db d = (.error .usernameAlreadyTaken, db))
  ∧ ((∃ u ∈ db, u.email = d.email ∨ u.username = d.username) →
        ∃ e, registerUser cfg now freshId db d = (.error e, db) ∧
          (e = Err.emailAlreadyRegistered ∨ e = Err.usernameAlreadyTaken))
  ∧ ((∀ u ∈ db, u.email ≠ d.email ∧ u.username ≠ d.username) →
        ∃ res newU, registerUser cfg now freshId db d = (.ok res, db ++ [newU])) := by
  refine ⟨?_, ?_, ?_, ?_⟩
  · intro hex hnu
    unfold registerUser
    cases hf : db.find? (fun u => decide (u.email = d.email ∨ u.username = d.username)) with
    | none =>
      rw [List.find?_eq_none] at hf
      obtain ⟨u, hu, he⟩ := hex
      have := hf u hu
      simp [he] at this
    | some ex =>
      have hpex := List.find?_some hf
      have hmem := List.mem_of_find?_eq_some hf
      simp only [decide_eq_true_eq] at hpex
      have he : ex.email = d.email := hpex.resolve_right (hnu ex hmem)
      simp [he]
  · intro hex hne
    unfold registerUser
    cases hf : db.find? (fun u => decide (u.email = d.email ∨ u.username = d.username)) with
    | none =>
      rw [List.find?_eq_none] at hf
      obtain ⟨u, hu, hus⟩ := hex
      have := hf u hu
      simp [hus] at this
    | some ex =>
      have hpex := List.find?_some hf
      have hmem := List.mem_of_find?_eq_some hf
      simp only [decide_eq_true_eq] at hpex
      have hnoe : ¬ ex.email = d.email := hne ex hmem
      have hus : ex.username = d.username := hpex.resolve_left hnoe
      simp [hnoe, hus]
  · intro hex
    unfold registerUser
    cases hf : db.find? (fun u => decide (u.email = d.email ∨ u.username = d.username)) with
    | none =>
      rw [List.find?_eq_none] at hf
      obtain ⟨u, hu, he⟩ := hex
      have := hf u hu
      simp [he] at this
    | some ex =>
      by_cases he : ex.email = d.email
      · exact ⟨.emailAlreadyRegistered, by simp [he], Or.inl rfl⟩
      · have hpex := List.find?_some hf
        simp only [decide_eq_true_eq] at hpex
        have hus : ex.username = d.username := hpex.resolve_left he
        exact ⟨.usernameAlreadyTaken, by simp [he, hus], Or.inr rfl⟩
  · intro hno
    have hf : db.find? (fun u => decide (u.email = d.email ∨ u.username = d.username)) = none := by
      rw [List.find?_eq_none]
      intro x hx
      simp only [decide_eq_true_eq]
      rintro (h | h)
      · exact (hno x hx).1 h
      · exact (hno x hx).2 h
    refine ⟨{ user := User.toAuthJSON
                { newUserDoc now freshId d with
                  refreshToken := some (generateRefreshToken cfg now freshId),
                  updatedAt := now },
              accessToken := generateAccessToken cfg now
                { userId := freshId, email := some d.email,
                  role := some (d.role.getD Role.student) },
              refreshToken := generateRefreshToken cfg now freshId },
            { newUserDoc now freshId d with
              refreshToken := some (generateRefreshToken cfg now freshId),
              updatedAt := now }, ?_⟩
    unfold registerUser
    rw [hf]
    try rfl

/-! ### Claim C6 -/

/-- After a successful password change for `uid`, every stored document with
that id carries the hash of the new password. -/
theorem changePassword_ok_hash (now : Nat) (db : DB) (uid : Nat)
    (current newPw : String) (db' : DB)
    (h : changePassword now db uid current newPw = (.ok (), db')) :
    ∀ u ∈ db', u.id = uid → u.password = bcryptHash newPw := by
  intro u hu hid
  unfold changePassword at h
  cases hfid : findById db uid with
  | none => simp [hfid] at h
  | some w =>
    simp only [hfid] at h
    have hwid : w.id = uid := by
      have hfid' : db.find? (fun v => decide (v.id = uid)) = some w := hfid
      simpa using List.find?_some hfid'
    by_cases h1 : w.comparePassword current = true
    · rw [if_pos h1] at h
      by_cases h2 : newPw.length < 8
      · rw [if_pos h2] at h
        exact absurd h (by simp)
      · rw [if_neg h2] at h
        injection h with ha hb
        subst hb
        rcases List.mem_map.mp hu with ⟨v, hv, rfl⟩
        by_cases hvid : v.id = w.id
        · rw [if_pos hvid]
        · rw [if_neg hvid] at hid
          exact absurd (hid.trans hwid.symm) hvid
    · rw [if_neg h1] at h
      exact absurd h (by simp)

/-- Claim C6: `changePassword` re-verifies the current password via the
hasher before accepting the new one and fails with the current-password
error on mismatch leaving the store unchanged; it enforces the 8-character
minimum on the new password; and after a successful change a credentials
check on the account succeeds only with the new password. -/
theorem C6_changePassword_checks (now : Nat) (db : DB) (uid : Nat)
    (current newPw : String) :
    (∀ u, findById db uid = some u → u.comparePassword current = false →
        changePassword now db uid current newPw =
          (.error .currentPasswordIncorrect, db))
  ∧ (∀ u, findById db uid = some u → u.comparePassword current = true →
        newPw.length < 8 →
        changePassword now db uid current newPw =
          (.error .newPasswordTooShort, db))
  ∧ (∀ db', changePassword now db uid current newPw = (.ok (), db') →
        ∀ u ∈ db', u.id = uid →
          ∀ p, (bcryptCompare p u.password = true ↔ p = newPw))
  ∧ (∀ db' email p w, changePassword now db uid current newPw = (.ok (), db') →
        findByCredentials db' email p = .ok w → w.id = uid → p = newPw) := by
  refine ⟨?_, ?_, ?_, ?_⟩
  · intro u hfid hcmp
    unfold changePassword
    simp [hfid, hcmp]
  · intro u hfid hcmp hlen
    unfold changePassword
    simp [hfid, hcmp, hlen]
  · intro db' h u hu hid p
    rw [changePassword_ok_hash now db uid current newPw db' h u hu hid]
    exact bcryptCompare_hash p newPw
  · intro db' email p w h hcred hwid
    have hwmem : w ∈ db' ∧ w.comparePassword p = true := by
      unfold findByCredentials at hcred
      cases hf : db'.find? (fun v => decide (v.email = email ∧ v.isActive = true)) with
      | none =>
        rw [hf] at hcred
        exact absurd hcred (by simp)
      | some v =>
        rw [hf] at hcred
        cases hcm : v.comparePassword p with
        | false => simp [hcm] at hcred
        | true =>
          simp only [hcm, if_true] at hcred
          cases hcred
          exact ⟨List.mem_of_find?_eq_some hf, hcm⟩
    have hhash := changePassword_ok_hash now db uid current newPw db' h w hwmem.1 hwid
    have := hwmem.2
    rw [User.comparePassword, hhash] at this
    exact (bcryptCompare_hash p newPw).mp this

/-! ### Claim C7 -/

/-- Claim C7: no outward-facing account view contains the password hash, the
refresh token, or the reset/verification token fields — neither the
`toAuthJSON` object returned by registration and login, nor a profile
document serialized through the schema's `toJSON` transform, nor an element
of the admin listing. -/
theorem C7_views_exclude_sensitive_fields :
    (∀ k ∈ transformDeletedKeys, k ∉ authViewKeys)
  ∧ (∀ k ∈ transformDeletedKeys, k ∉ toJSONTransform userDocumentKeys)
  ∧ (∀ k ∈ transformDeletedKeys, k ∉ listingKeys) := by
  decide

/-! ### Claim C8 -/

/-- The fields the profile-update path must not change. -/
def protectedUnchanged (v v' : User) : Prop :=
  v'.id = v.id ∧ v'.password = v.password ∧ v'.email = v.email ∧
  v'.role = v.role ∧ v'.refreshToken = v.refreshToken

/-- Claim C8: the profile-update path strips `password`, `email`, `role` and
`refreshToken` from the request before applying it, so an update request
naming them does not alter them — on any stored document and on the returned
updated document. -/
theorem C8_updateProfile_protects_fields (now : Nat) (db : DB) (uid : Nat)
    (b : UpdateBody) :
    (List.Forall₂ protectedUnchanged db (updateProfile now db uid b).2)
  ∧ (∀ r, (updateProfile now db uid b).1 = .ok r →
        ∃ u, findById db uid = some u ∧ r.password = u.password ∧
          r.email = u.email ∧ r.role = u.role ∧
          r.refreshToken = u.refreshToken) := by
  constructor
  · unfold updateProfile updateUser
    cases hfid : findById db uid with
    | none =>
      simp only [hfid]
      rw [List.forall₂_same]
      exact fun x _ => ⟨rfl, rfl, rfl, rfl, rfl⟩
    | some u =>
      simp only [hfid]
      apply forall₂_map_self
      intro x hx
      by_cases hxid : x.id = uid
      · rw [if_pos hxid]
        exact ⟨rfl, rfl, rfl, rfl, rfl⟩
      · rw [if_neg hxid]
        exact ⟨rfl, rfl, rfl, rfl, rfl⟩
  · intro r h
    unfold updateProfile updateUser at h
    cases hfid : findById db uid with
    | none =>
      simp only [hfid] at h
      exact absurd h (by simp)
    | some u =>
      simp only [hfid, Except.ok.injEq] at h
      refine ⟨u, rfl, ?_, ?_, ?_, ?_⟩
      · rw [← h]
        rfl
      · rw [← h]
        rfl
      · rw [← h]
        rfl
      · rw [← h]
        rfl

/-! ### Claim C10 -/

/-- Membership-restricted version of `find?_map_of_pred_eq`: it is enough
that the mapped function preserve the predicate's verdict on the list's own
elements. -/
theorem find?_map_of_pred_eq_mem {α : Type} (g : α → α) (p : α → Bool)
    (l : List α) (h : ∀ x ∈ l, p (g x) = p x) :
    (l.map g).find? p = (l.find? p).map g := by
  induction l with
  | nil => rfl
  | cons a t ih =>
    have ha := h a (List.mem_cons_self a t)
    cases hpa : p a with
    | true =>
      rw [List.map_cons, List.find?_cons_of_pos (t.map g) (by rw [ha, hpa]),
          List.find?_cons_of_pos t hpa, Option.map_some']
    | false =>
      rw [List.map_cons,
          List.find?_cons_of_neg (t.map g)
            (by rw [ha, hpa]; exact Bool.false_ne_true),
          List.find?_cons_of_neg t (by rw [hpa]; exact Bool.false_ne_true),
          ih (fun x hx => h x (List.mem_cons_of_mem a hx))]

/-- A successful password change is exactly a save of the found document with
only its password re-hashed (and `updatedAt` bumped). -/
theorem changePassword_ok_shape (now : Nat) (db : DB) (uid : Nat)
    (current newPw : String) (db' : DB)
    (h : changePassword now db uid current newPw = (.ok (), db')) :
    ∃ w, findById db uid = some w ∧
      db' = saveUser db { w with password := bcryptHash newPw,
                                 updatedAt := now } := by
  unfold changePassword at h
  cases hfid : findById db uid with
  | none => simp [hfid] at h
  | some w =>
    simp only [hfid] at h
    by_cases h1 : w.comparePassword current = true
    · rw [if_pos h1] at h
      by_cases h2 : newPw.length < 8
      · rw [if_pos h2] at h
        exact absurd h (by simp)
      · rw [if_neg h2] at h
        injection h with ha hb
        exact ⟨w, rfl, hb.symm⟩
    · rw [if_neg h1] at h
      exact absurd h (by simp)

/-- Pairwise relation allowing only the password hash and the
store-maintained `updatedAt` timestamp to differ. -/
def nonPasswordUnchanged (v v' : User) : Prop :=
  v'.id = v.id ∧ v'.username = v.username ∧ v'.email = v.email ∧
  v'.firstName = v.firstName ∧ v'.lastName = v.lastName ∧ v'.role = v.role ∧
  v'.profileImage = v.profileImage ∧ v'.bio = v.bio ∧
  v'.isActive = v.isActive ∧ v'.isEmailVerified = v.isEmailVerified ∧
  v'.lastLogin = v.lastLogin ∧ v'.refreshToken = v.refreshToken ∧
  v'.passwordResetToken = v.passwordResetToken ∧
  v'.passwordResetExpires = v.passwordResetExpires ∧
  v'.emailVerificationToken = v.emailVerificationToken ∧
  v'.preferences = v.preferences ∧ v'.createdAt = v.createdAt

/-- Claim C10: a successful `changePassword` modifies only the stored
password hash (and the store-maintained timestamp); in particular every
document keeps its refresh token, identity and liveness fields, so the
outcome of the refresh operation — for any token — is the same before and
after the change: a refresh token issued before the password change still
satisfies it afterwards.  The hypothesis reflects the store's unique-`_id`
index. -/
theorem C10_changePassword_frame (cfg : JwtCfg) (now nowR : Nat) (db : DB)
    (uid : Nat) (current newPw : String)
    (hids : (db.map (fun u => u.id)).Nodup) :
    (∀ db', changePassword now db uid current newPw = (.ok (), db') →
        List.Forall₂ nonPasswordUnchanged db db')
  ∧ (∀ db' t, changePassword now db uid current newPw = (.ok (), db') →
        (refreshAccessToken cfg nowR db' t).1 =
          (refreshAccessToken cfg nowR db t).1) := by
  constructor
  · intro db' h
    obtain ⟨w, hfid, rfl⟩ := changePassword_ok_shape now db uid current newPw db' h
    have hfid' : db.find? (fun v => decide (v.id = uid)) = some w := hfid
    have hwmem : w ∈ db := List.mem_of_find?_eq_some hfid'
    apply forall₂_map_self
    intro x hx
    by_cases hxid : x.id = w.id
    · have hxw : x = w := List.inj_on_of_nodup_map hids hx hwmem hxid
      subst hxw
      rw [if_pos hxid]
      simp [nonPasswordUnchanged]
    · rw [if_neg hxid]
      simp [nonPasswordUnchanged]
  · intro db' t h
    obtain ⟨w, hfid, rfl⟩ := changePassword_ok_shape now db uid current newPw db' h
    have hfid' : db.find? (fun v => decide (v.id = uid)) = some w := hfid
    have hwmem : w ∈ db := List.mem_of_find?_eq_some hfid'
    unfold refreshAccessToken
    cases hv : verifyToken cfg nowR t with
    | error e => simp only [hv]
    | ok p =>
      simp only [hv]
      have hpred : ∀ x ∈ db,
          (fun u => decide (u.id = p.userId ∧ u.refreshToken = some t ∧
              u.isActive = true))
            ((fun v =>
              if v.id = ({ w with password := bcryptHash newPw,
                                  updatedAt := now } : User).id then
                { w with password := bcryptHash newPw, updatedAt := now }
              else v) x) =
          (fun u => decide (u.id = p.userId ∧ u.refreshToken = some t ∧
              u.isActive = true)) x := by
        intro x hx
        by_cases hxid : x.id = w.id
        · have hxw : x = w := List.inj_on_of_nodup_map hids hx hwmem hxid
          subst hxw
          simp
        · simp [hxid]
      have hmap := find?_map_of_pred_eq_mem
        (fun v =>
          if v.id = ({ w with password := bcryptHash newPw,
                              updatedAt := now } : User).id then
            { w with password := bcryptHash newPw, updatedAt := now }
          else v)
        (fun u => decide (u.id = p.userId ∧ u.refreshToken = some t ∧
            u.isActive = true))
        db hpred
    
      unfold saveUser
      rw [hmap]
      cases hf : db.find? (fun u => decide (u.id = p.userId ∧
          u.refreshToken = some t ∧ u.isActive = true)) with
      | none => simp
      | some v =>
        simp only [Option.map_some']
        have hvmem : v ∈ db := List.mem_of_find?_eq_some hf
        by_cases hvid : v.id = w.id
        · have hvw : v = w := List.inj_on_of_nodup_map hids hvmem hwmem hvid
          subst hvw
          simp
        · simp [hvid]

/-- Fixture collection state after a successful concrete password change. -/
def dbXAfter : DB := (changePassword 5 dbX 1 "password1" "newpass123").2

/-- Witness for C10 at a concrete input: the unique-id hypothesis holds for
the one-element fixture collection and the theorem instantiates. -/
theorem C10_changePassword_frame_witness :
    (∀ db', changePassword 5 dbX 1 "password1" "newpass123" = (.ok (), db') →
        List.Forall₂ nonPasswordUnchanged dbX db')
  ∧ (∀ db' t, changePassword 5 dbX 1 "password1" "newpass123" = (.ok (), db') →
        (refreshAccessToken cfgX 9 db' t).1 =
          (refreshAccessToken cfgX 9 dbX t).1) :=
  C10_changePassword_frame cfgX 5 9 dbX 1 "password1" "newpass123" (by decide)

/-! ### Concrete evaluations of the embedded operations -/

/-- A concrete access token for the fixture account. -/
def accessTokX : Token :=
  generateAccessToken cfgX 0
    { userId := 1, email := some "alice@example.com", role := some .student }

/-- A concrete stored refresh token for the fixture account. -/
def goodRefreshTok : Token := generateRefreshToken cfgX 2 1

/-- Fixture collection whose account stores `goodRefreshTok`. -/
def dbY : DB := [{ aliceX with refreshToken := some goodRefreshTok }]

/-- The fixture credentials authenticate and return the stored account. -/
theorem sanity_findByCredentials_ok :
    findByCredentials dbX "alice@example.com" "password1" = .ok aliceX := rfl

/-- A wrong password and an unknown email produce the same generic error. -/
theorem sanity_findByCredentials_generic :
    findByCredentials dbX "alice@example.com" "wrong-password" =
      .error .invalidCredentials ∧
    findByCredentials dbX "bob@example.com" "password1" =
      .error .invalidCredentials := ⟨rfl, rfl⟩

/-- A valid unexpired token on a live account attaches the identity. -/
theorem sanity_authenticate_ok :
    authenticate cfgX 10 dbX (.bearer accessTokX) =
      .ok { id := 1, username := "alice", email := "alice@example.com",
            role := .student } := rfl

/-- After a soft delete the same still-unexpired token is rejected. -/
theorem sanity_authenticate_after_delete :
    authenticate cfgX 10 ((deleteUser 7 dbX 1).2) (.bearer accessTokX) =
      .unauthorized "User not found or inactive" := rfl

/-- Refreshing with the stored token issues a new access token. -/
theorem sanity_refresh_ok :
    (refreshAccessToken cfgX 10 dbY goodRefreshTok).1 =
      .ok (generateAccessToken cfgX 10
        { userId := 1, email := some "alice@example.com",
          role := some .student }) := rfl

/-- A correctly signed refresh token that is not the stored one fails with
the refresh-specific error. -/
theorem sanity_refresh_not_stored :
    (refreshAccessToken cfgX 10 dbY (generateRefreshToken cfgX 4 1)).1 =
      .error .invalidRefreshToken := rfl

/-- After logout the previously stored refresh token no longer refreshes. -/
theorem sanity_refresh_after_logout :
    (refreshAccessToken cfgX 10 (logoutUser 6 dbY 1).2 goodRefreshTok).1 =
      .error .invalidRefreshToken := rfl

/-- Registering a second account under the fixture's email fails with the
email-specific duplicate error and leaves the collection unchanged. -/
theorem sanity_register_duplicate_email :
    registerUser cfgX 8 2 dbX
      { username := "bob", email := "alice@example.com", password := "secretpw",
        firstName := none, lastName := none, role := none } =
      (.error .emailAlreadyRegistered, dbX) := rfl

/-- A successful password change: the old password stops working and the new
one authenticates. -/
theorem sanity_changePassword_roundtrip :
    (changePassword 5 dbX 1 "password1" "newpass123").1 = .ok () ∧
    findByCredentials dbXAfter "alice@example.com" "newpass123" =
      .ok { aliceX with password := bcryptHash "newpass123", updatedAt := 5 } ∧
    findByCredentials dbXAfter "alice@example.com" "password1" =
      .error .invalidCredentials := ⟨rfl, rfl, rfl⟩

/-- A profile update naming protected fields changes only the unprotected
ones. -/
theorem sanity_updateProfile_strips_protected :
    (updateProfile 9 dbX 1
      { usernameF := none, emailF := some "evil@example.com",
        passwordF := some "hacked", roleF := some .admin,
        refreshTokenF := some none, firstNameF := some "Al",
        lastNameF := none, bioF := none, profileImageF := none }).2 =
      [{ aliceX with firstName := some "Al", updatedAt := 9 }] := rfl

/-- A run whose third attempt succeeds connects after exactly two sleeps. -/
theorem sanity_connect_third_attempt :
    connectDB (fun i => decide (i = 2)) 5 5000 =
      .connected 3 [5000, 10000] := rfl
